import Mathlib

/-!
Verification of the dr_robot aggregation core (`src/aggregation.py`).

The sqlite `data` table is modelled as a list of rows in insertion order
(`domainid INTEGER PRIMARY KEY` is an autoincrement rowid and carries no
information beyond that order).  SQL three-valued comparison is modelled by
`sqlEq` (a `NULL` column compares unequal to everything, including `NULL`),
which is also what the `UNIQUE(ip, hostname)` constraint uses: two rows
conflict only when both columns are non-null and equal.
-/

set_option maxHeartbeats 1000000

namespace DrRobot

/-- A row of the sqlite `data` table created in `Aggregation.aggregate`:
`(domainid, ip, hostname, http_headers, https_headers, domain)`, without the
rowid. -/
structure Row where
  ip : Option String
  hostname : Option String
  http_headers : Option String
  https_headers : Option String
  domain : Option String
deriving DecidableEq, Repr

/-- SQL equality (`=`) between two nullable text values: `NULL` compares
unequal to everything, including `NULL`. -/
def sqlEq : Option String → Option String → Bool
  | some a, some b => a == b
  | _, _ => false

theorem sqlEq_eq_beq (x : Option String) (y : String) : sqlEq x (some y) = (x == some y) := by
  cases x <;> rfl

theorem sqlEq_some_iff (x : Option String) (y : String) : sqlEq x (some y) = true ↔ x = some y := by
  cases x with
  | none => simp [sqlEq]
  | some a => simp [sqlEq]

/-- The row inserted by `_build_db` for one `(host, ip)` pair:
`INSERT INTO data (ip, hostname, http_headers, https_headers, domain)
VALUES (?, ?, NULL, NULL, ?)`. -/
def mkRow (domain : String) (p : Option String × Option String) : Row :=
  ⟨p.2, p.1, none, none, some domain⟩

/-- Whether a stored row conflicts with the candidate `(ip, hostname)` under
the `UNIQUE(ip, hostname)` constraint (sqlite semantics: `NULL` values are
distinct, so a conflict needs both columns non-null and equal). -/
def rowMatches (r : Row) (ip host : Option String) : Bool :=
  sqlEq r.ip ip && sqlEq r.hostname host

/-- Whether inserting `(ip, host)` into `db` raises an `IntegrityError` for
the `UNIQUE(ip, hostname)` constraint. -/
def uniqueViolation (db : List Row) (ip host : Option String) : Bool :=
  db.any (fun r => rowMatches r ip host)

/-- `Aggregation._build_db`: iterates over the `(host, ip)` pairs inserting
each one; the whole loop is wrapped in one `try/except BaseException`, so the
first failing insert stops the loop (the exception is printed, not re-raised)
and `COMMIT` still runs, keeping the rows inserted before the failure. -/
def build_db (domain : String) : List (Option String × Option String) → List Row → List Row
  | [], db => db
  | (host, ip) :: rest, db =>
    if uniqueViolation db ip host then db
    else build_db domain rest (db ++ [mkRow domain (host, ip)])

/-- Number of rows of `db` whose `ip` and `hostname` columns are structurally
equal to the given values (this is plain equality, used to count rows for a
pair; it is not the SQL comparison). -/
def countPair (db : List Row) (ip host : Option String) : Nat :=
  db.countP (fun r => r.ip == ip && r.hostname == host)

/-- The database obtained when every pair of the batch is inserted
successfully. -/
def applyInserts (domain : String) (db : List Row) (pairs : List (Option String × Option String)) :
    List Row :=
  db ++ pairs.map (mkRow domain)

/-- Whether inserting the pairs one after the other from `db` hits no
`UNIQUE(ip, hostname)` violation. -/
def insertsOk (domain : String) : List Row → List (Option String × Option String) → Bool
  | _, [] => true
  | db, (host, ip) :: rest =>
    !uniqueViolation db ip host && insertsOk domain (db ++ [mkRow domain (host, ip)]) rest

theorem build_db_ok (domain : String) (pairs : List (Option String × Option String))
    (db : List Row) (hok : insertsOk domain db pairs = true) :
    build_db domain pairs db = applyInserts domain db pairs := by
  induction pairs generalizing db with
  | nil => simp [build_db, applyInserts]
  | cons p rest ih =>
    obtain ⟨host, ip⟩ := p
    simp only [insertsOk, Bool.and_eq_true, Bool.not_eq_true'] at hok
    simp only [build_db, hok.1, if_false, Bool.false_eq_true]
    rw [ih _ hok.2]
    simp [applyInserts]

/-- Claim C1 (amended): if a pair of the batch violates `UNIQUE(ip, hostname)`,
no exception propagates and the transaction still commits, but the insertion
loop stops at the violating pair: the pairs before it are inserted, while the
violating pair and every pair after it are dropped. -/
theorem build_db_stops_at_first_violation (domain : String) (db : List Row)
    (pre post : List (Option String × Option String)) (host ip : Option String)
    (hok : insertsOk domain db pre = true)
    (hviol : uniqueViolation (applyInserts domain db pre) ip host = true) :
    build_db domain (pre ++ (host, ip) :: post) db = applyInserts domain db pre := by
  induction pre generalizing db with
  | nil =>
    simp only [applyInserts, List.map_nil, List.append_nil] at hviol ⊢
    simp [build_db, hviol]
  | cons p rest ih =>
    obtain ⟨h0, i0⟩ := p
    simp only [insertsOk, Bool.and_eq_true, Bool.not_eq_true'] at hok
    simp only [List.cons_append, build_db, hok.1, if_false, Bool.false_eq_true, List.append_eq]
    have hviol2 : uniqueViolation (applyInserts domain (db ++ [mkRow domain (h0, i0)]) rest) ip host = true := by
      simpa [applyInserts, List.append_assoc] using hviol
    rw [ih _ hok.2 hviol2]
    simp [applyInserts]

/-- Witness for `build_db_stops_at_first_violation` at a concrete batch. -/
theorem build_db_stops_at_first_violation_witness :
    insertsOk "d" [] [(some "h", some "1.1.1.1")] = true
  ∧ uniqueViolation (applyInserts "d" [] [(some "h", some "1.1.1.1")]) (some "1.1.1.1") (some "h") = true
  ∧ build_db "d" ([(some "h", some "1.1.1.1")] ++
      (some "h", some "1.1.1.1") :: [(some "g", some "2.2.2.2")]) []
      = applyInserts "d" [] [(some "h", some "1.1.1.1")] :=
  ⟨by decide, by decide,
    build_db_stops_at_first_violation "d" [] [(some "h", some "1.1.1.1")]
      [(some "g", some "2.2.2.2")] (some "h") (some "1.1.1.1") (by decide) (by decide)⟩

/-- Claim C1 is refuted on the code: in the batch
`[(h, 1.1.1.1), (h, 1.1.1.1), (g, 2.2.2.2)]` the second pair violates
`UNIQUE(ip, hostname)`, and the pair `(g, 2.2.2.2)` occurring after it is NOT
inserted (the `try/except` wraps the whole loop, so the exception aborts the
rest of the batch), while the claim says every other pair of the batch is
still inserted. -/
theorem build_db_later_pair_dropped :
    countPair (build_db "d"
      [(some "h", some "1.1.1.1"), (some "h", some "1.1.1.1"), (some "g", some "2.2.2.2")] [])
      (some "2.2.2.2") (some "g") = 0 := by decide

theorem countPair_append (db1 db2 : List Row) (ip host : Option String) :
    countPair (db1 ++ db2) ip host = countPair db1 ip host + countPair db2 ip host := by
  simp [countPair, List.countP_append]

theorem uniqueViolation_eq_false_of_countPair_zero (db : List Row) (ip host : String)
    (h : countPair db (some ip) (some host) = 0) :
    uniqueViolation db (some ip) (some host) = false := by
  simp only [countPair, List.countP_eq_zero] at h
  simp only [uniqueViolation, List.any_eq_false]
  intro r hr
  have := h r hr
  simp only [rowMatches, sqlEq_eq_beq]
  simpa using this

/-- Claim C5 (amended): for a pair in which both `ip` and `hostname` are
non-null, inserting the pair twice for the same domain — within one batch or
across two separate insert calls — leaves exactly one row for the pair
(the second insert hits the `UNIQUE(ip, hostname)` constraint and the raised
`IntegrityError` is swallowed). -/
theorem insert_pair_idempotent (domain host ip : String) (db : List Row)
    (h0 : countPair db (some ip) (some host) = 0) :
    countPair (build_db domain [(some host, some ip), (some host, some ip)] db)
      (some ip) (some host) = 1
  ∧ countPair (build_db domain [(some host, some ip)]
      (build_db domain [(some host, some ip)] db)) (some ip) (some host) = 1 := by
  have hnov : uniqueViolation db (some ip) (some host) = false :=
    uniqueViolation_eq_false_of_countPair_zero db ip host h0
  have hrow : countPair [mkRow domain (some host, some ip)] (some ip) (some host) = 1 := by
    simp [countPair, mkRow]
  have hviol : uniqueViolation (db ++ [mkRow domain (some host, some ip)])
      (some ip) (some host) = true := by
    simp [uniqueViolation, rowMatches, mkRow, sqlEq]
  constructor
  · simp only [build_db, hnov, if_false, Bool.false_eq_true, hviol, if_true]
    rw [countPair_append, h0, hrow]
  · have h1 : build_db domain [(some host, some ip)] db = db ++ [mkRow domain (some host, some ip)] := by
      simp [build_db, hnov]
    rw [h1]
    simp only [build_db, hviol, if_true]
    rw [countPair_append, h0, hrow]

/-- Witness for `insert_pair_idempotent` at the spec scenario pair
`(a.example.com, 9.9.9.9)` starting from an empty table. -/
theorem insert_pair_idempotent_witness :
    countPair [] (some "9.9.9.9") (some "a.example.com") = 0
  ∧ (countPair (build_db "example_com"
        [(some "a.example.com", some "9.9.9.9"), (some "a.example.com", some "9.9.9.9")] [])
        (some "9.9.9.9") (some "a.example.com") = 1
    ∧ countPair (build_db "example_com" [(some "a.example.com", some "9.9.9.9")]
        (build_db "example_com" [(some "a.example.com", some "9.9.9.9")] []))
        (some "9.9.9.9") (some "a.example.com") = 1) :=
  ⟨by decide, insert_pair_idempotent "example_com" "a.example.com" "9.9.9.9" [] (by decide)⟩

/-- Claim C5 is refuted on the code for pairs with a null component: sqlite
`UNIQUE` treats `NULL` values as distinct, so inserting the hostname-only pair
`(a.example.com, NULL)` twice leaves TWO rows for that pair, not one. -/
theorem insert_null_pair_duplicates :
    countPair (build_db "example_com"
      [(some "a.example.com", none), (some "a.example.com", none)] [])
      none (some "a.example.com") = 2 := by decide

/-- The `WHERE ip = ? AND domain = ?` clause of the header `UPDATE` in
`Aggregation.headers` (first wave). -/
def ipDomainMatch (ip domain : String) (r : Row) : Bool :=
  sqlEq r.ip (some ip) && sqlEq r.domain (some domain)

/-- `UPDATE data SET http_headers=?, https_headers=? WHERE ip = ? AND
domain = ? LIMIT 1`: both header columns of the first matching row are
overwritten by whole-field assignment; later rows are untouched. -/
def update_headers_ip (db : List Row) (domain ip : String) (http https : Option String) :
    List Row :=
  match db with
  | [] => []
  | r :: rest =>
    if ipDomainMatch ip domain r then
      { r with http_headers := http, https_headers := https } :: rest
    else r :: update_headers_ip rest domain ip http https

/-- Result tuple of the header `SELECT` in `dump_to_file`:
`(ip, hostname, http_headers, https_headers)`. -/
def headerTuple (r : Row) : Option String × Option String × Option String × Option String :=
  (r.ip, r.hostname, r.http_headers, r.https_headers)

/-- `WHERE domain='...' AND (http_headers IS NOT NULL AND https_headers IS NOT
NULL)` of the header `SELECT` in `dump_to_file`. -/
def selectHeadersPred (domain : String) (r : Row) : Bool :=
  sqlEq r.domain (some domain) && (r.http_headers.isSome && r.https_headers.isSome)

/-- The header `SELECT` of `dump_to_file` before `DISTINCT` is applied. -/
def selectHeadersRows (db : List Row) (domain : String) :
    List (Option String × Option String × Option String × Option String) :=
  (db.filter (selectHeadersPred domain)).map headerTuple

/-- `SELECT DISTINCT ip, hostname, http_headers, https_headers FROM data WHERE
domain='...' AND (http_headers IS NOT NULL AND https_headers IS NOT NULL)`
(the with-headers selection of `dump_to_file`). -/
def select_with_headers (db : List Row) (domain : String) :
    List (Option String × Option String × Option String × Option String) :=
  (selectHeadersRows db domain).dedup

theorem selectHeaders_filter_nil (db : List Row) (ip domain : String)
    (h : db.countP (ipDomainMatch ip domain) = 0) :
    (selectHeadersRows db domain).filter (fun t => t.1 == some ip) = [] := by
  induction db with
  | nil => rfl
  | cons r rest ih =>
    rw [List.countP_cons] at h
    have hr : ipDomainMatch ip domain r = false := by
      rcases hb : ipDomainMatch ip domain r with _ | _
      · rfl
      · simp [hb] at h
    have hrest : rest.countP (ipDomainMatch ip domain) = 0 := by omega
    simp only [selectHeadersRows, List.filter_cons] at ih ⊢
    by_cases hs : selectHeadersPred domain r = true
    · simp only [hs, if_true, List.map_cons, List.filter_cons]
      have hq : (headerTuple r).1 == some ip → False := by
        intro hq
        have h1 : sqlEq r.ip (some ip) = true := by
          rw [sqlEq_eq_beq]; simpa [headerTuple] using hq
        have h2 : sqlEq r.domain (some domain) = true := by
          simp only [selectHeadersPred, Bool.and_eq_true] at hs
          exact hs.1
        simp [ipDomainMatch, h1, h2] at hr
      simp only [show ((headerTuple r).1 == some ip) = false by
        rcases hb : (headerTuple r).1 == some ip with _ | _
        · rfl
        · exact absurd hb (fun hb => hq hb)]
      simpa using ih hrest
    · simp only [show selectHeadersPred domain r = false by simpa using hs, if_false,
        Bool.false_eq_true]
      exact ih hrest

theorem selectHeaders_filter_after_update (db : List Row) (domain ip hH hS : String)
    (h : db.countP (ipDomainMatch ip domain) = 1) :
    ∃ h0, (selectHeadersRows (update_headers_ip db domain ip (some hH) (some hS)) domain).filter
        (fun t => t.1 == some ip) = [(some ip, h0, some hH, some hS)] := by
  induction db with
  | nil => simp [List.countP_nil] at h
  | cons r rest ih =>
    rw [List.countP_cons] at h
    by_cases hm : ipDomainMatch ip domain r = true
    · have hrest : rest.countP (ipDomainMatch ip domain) = 0 := by
        rw [hm] at h; simpa using h
      have hip : r.ip = some ip := by
        rw [ipDomainMatch, Bool.and_eq_true] at hm
        exact (sqlEq_some_iff _ _).mp hm.1
      have hdom : sqlEq r.domain (some domain) = true := by
        rw [ipDomainMatch, Bool.and_eq_true] at hm
        exact hm.2
      refine ⟨r.hostname, ?_⟩
      simp only [update_headers_ip, hm, if_true]
      simp only [selectHeadersRows, List.filter_cons]
      have hsel : selectHeadersPred domain
          { r with http_headers := some hH, https_headers := some hS } = true := by
        simp [selectHeadersPred, hdom]
      simp only [hsel, if_true, List.map_cons, List.filter_cons]
      have hq : (headerTuple { r with http_headers := some hH, https_headers := some hS }).1
          == some ip := by
        simp [headerTuple, hip]
      simp only [hq, if_true]
      have hnil := selectHeaders_filter_nil rest ip domain hrest
      simp only [selectHeadersRows] at hnil
      rw [hnil]
      simp [headerTuple, hip]
    · have hm0 : ipDomainMatch ip domain r = false := by simpa using hm
      have hrest : rest.countP (ipDomainMatch ip domain) = 1 := by
        rw [hm0] at h; simpa using h
      obtain ⟨h0, hrec⟩ := ih hrest
      refine ⟨h0, ?_⟩
      simp only [update_headers_ip, hm0, if_false, Bool.false_eq_true]
      simp only [selectHeadersRows, List.filter_cons]
      by_cases hs : selectHeadersPred domain r = true
      · simp only [hs, if_true, List.map_cons, List.filter_cons]
        have hq : ((headerTuple r).1 == some ip) = false := by
          rcases hb : (headerTuple r).1 == some ip with _ | _
          · rfl
          · exfalso
            have h1 : sqlEq r.ip (some ip) = true := by
              rw [sqlEq_eq_beq]; simpa [headerTuple] using hb
            have h2 : sqlEq r.domain (some domain) = true := by
              simp only [selectHeadersPred, Bool.and_eq_true] at hs
              exact hs.1
            simp [ipDomainMatch, h1, h2] at hm0
        simp only [hq, if_false, Bool.false_eq_true]
        simpa [selectHeadersRows] using hrec
      · simp only [show selectHeadersPred domain r = false by simpa using hs, if_false,
          Bool.false_eq_true]
        simpa [selectHeadersRows] using hrec

/-- Claim C6: after the header `UPDATE` sets `http_headers = H` and
`https_headers = S` (both non-null) for the single row carrying a given ip in
a domain, the with-headers selection of `dump_to_file` returns exactly `H` and
`S` for that ip.  The prior header values of the row are universally
quantified (they sit inside `db`), so the theorem also states that old values
are overwritten as whole fields, never merged. -/
theorem update_headers_roundtrip (db : List Row) (domain ip hH hS : String)
    (huniq : db.countP (ipDomainMatch ip domain) = 1) :
    ((select_with_headers (update_headers_ip db domain ip (some hH) (some hS)) domain).filter
        (fun t => t.1 == some ip)).map (fun t => (t.2.2.1, t.2.2.2))
      = [(some hH, some hS)] := by
  obtain ⟨h0, hfq⟩ := selectHeaders_filter_after_update db domain ip hH hS huniq
  have hsub : List.Sublist
      ((select_with_headers (update_headers_ip db domain ip (some hH) (some hS))
        domain).filter (fun t => t.1 == some ip))
      ((selectHeadersRows (update_headers_ip db domain ip (some hH) (some hS))
        domain).filter (fun t => t.1 == some ip)) :=
    List.Sublist.filter _ (List.dedup_sublist _)
  rw [hfq] at hsub
  have hmem : (some ip, h0, some hH, some hS)
      ∈ (select_with_headers (update_headers_ip db domain ip (some hH) (some hS))
        domain).filter (fun t => t.1 == some ip) := by
    have hin : (some ip, h0, some hH, some hS)
        ∈ (selectHeadersRows (update_headers_ip db domain ip (some hH) (some hS))
          domain).filter (fun t => t.1 == some ip) := by
      rw [hfq]; exact List.mem_singleton.mpr rfl
    rw [List.mem_filter] at hin
    exact List.mem_filter.mpr ⟨List.mem_dedup.mpr hin.1, hin.2⟩
  rcases List.sublist_singleton.mp hsub with hcase | hcase
  · rw [hcase] at hmem
    exact absurd hmem (List.not_mem_nil _)
  · rw [hcase]
    rfl

/-- Witness for `update_headers_roundtrip` at the spec scenario: ip `9.9.9.9`,
`http = X`, `https = Y`, starting from a row with stale header values. -/
theorem update_headers_roundtrip_witness :
    ([⟨some "9.9.9.9", some "a.example.com", some "old", none, some "d"⟩] : List Row).countP
      (ipDomainMatch "9.9.9.9" "d") = 1
  ∧ ((select_with_headers (update_headers_ip
        [⟨some "9.9.9.9", some "a.example.com", some "old", none, some "d"⟩]
        "d" "9.9.9.9" (some "X") (some "Y")) "d").filter
        (fun t => t.1 == some "9.9.9.9")).map (fun t => (t.2.2.1, t.2.2.2))
      = [(some "X", some "Y")] :=
  ⟨by decide,
    update_headers_roundtrip
      [⟨some "9.9.9.9", some "a.example.com", some "old", none, some "d"⟩]
      "d" "9.9.9.9" "X" "Y" (by decide)⟩

/-- `WHERE domain='...' AND (http_headers IS NOT NULL OR https_headers IS NOT
NULL)` of the `SELECT *` in `_gen_output`. -/
def indexer_header_pred (domain : String) (r : Row) : Bool :=
  sqlEq r.domain (some domain) && (r.http_headers.isSome || r.https_headers.isSome)

/-- The rows the Indexer (`_gen_output`) treats as having headers. -/
def indexer_header_rows (db : List Row) (domain : String) : List Row :=
  db.filter (indexer_header_pred domain)

/-- Claim C10: a row of the domain contributes a per-hostname header dump
(it is in the with-headers selection driving the `headers/` file loop of
`dump_to_file`) exactly when BOTH header columns are non-null, while the
Indexer's header phase keeps the row as soon as ONE header column is non-null;
so a row with exactly one non-null header produces no dump file although the
Indexer treats it as having headers. -/
theorem header_dump_iff (db : List Row) (domain : String) (r : Row)
    (hmem : r ∈ db) (hdom : sqlEq r.domain (some domain) = true) :
    (headerTuple r ∈ select_with_headers db domain
        ↔ (r.http_headers ≠ none ∧ r.https_headers ≠ none))
  ∧ (r ∈ indexer_header_rows db domain
        ↔ (r.http_headers ≠ none ∨ r.https_headers ≠ none)) := by
  constructor
  · rw [select_with_headers, List.mem_dedup, selectHeadersRows, List.mem_map]
    constructor
    · rintro ⟨r2, hr2, heq⟩
      rw [List.mem_filter] at hr2
      have hsel := hr2.2
      simp only [selectHeadersPred, Bool.and_eq_true] at hsel
      simp only [headerTuple, Prod.mk.injEq] at heq
      rw [← heq.2.2.1, ← heq.2.2.2]
      exact ⟨Option.isSome_iff_ne_none.mp hsel.2.1, Option.isSome_iff_ne_none.mp hsel.2.2⟩
    · rintro ⟨h1, h2⟩
      refine ⟨r, List.mem_filter.mpr ⟨hmem, ?_⟩, rfl⟩
      simp only [selectHeadersPred, Bool.and_eq_true]
      exact ⟨hdom, Option.isSome_iff_ne_none.mpr h1, Option.isSome_iff_ne_none.mpr h2⟩
  · rw [indexer_header_rows, List.mem_filter]
    simp only [indexer_header_pred, Bool.and_eq_true, Bool.or_eq_true,
      Option.isSome_iff_ne_none]
    constructor
    · rintro ⟨-, -, hor⟩
      exact hor
    · intro hor
      exact ⟨hmem, hdom, hor⟩

/-- Witness for `header_dump_iff` at a row whose `http_headers` is set and
whose `https_headers` is null: no header dump file, but indexed as having
headers. -/
theorem header_dump_iff_witness :
    (⟨some "9.9.9.9", some "a.example.com", some "X", none, some "d"⟩ : Row)
      ∈ ([⟨some "9.9.9.9", some "a.example.com", some "X", none, some "d"⟩] : List Row)
  ∧ sqlEq (some "d") (some "d") = true
  ∧ ((headerTuple ⟨some "9.9.9.9", some "a.example.com", some "X", none, some "d"⟩
        ∈ select_with_headers
          [⟨some "9.9.9.9", some "a.example.com", some "X", none, some "d"⟩] "d"
        ↔ ((some "X" : Option String) ≠ none ∧ (none : Option String) ≠ none))
    ∧ ((⟨some "9.9.9.9", some "a.example.com", some "X", none, some "d"⟩ : Row)
        ∈ indexer_header_rows
          [⟨some "9.9.9.9", some "a.example.com", some "X", none, some "d"⟩] "d"
        ↔ ((some "X" : Option String) ≠ none ∨ (none : Option String) ≠ none))) :=
  ⟨List.mem_singleton.mpr rfl, by decide,
    header_dump_iff [⟨some "9.9.9.9", some "a.example.com", some "X", none, some "d"⟩] "d"
      ⟨some "9.9.9.9", some "a.example.com", some "X", none, some "d"⟩
      (List.mem_singleton.mpr rfl) (by decide)⟩

/-- Python `str` formatting of a nullable value (an SQL `NULL` arrives as
`None` and prints as the string `None`). -/
def pyStr : Option String → String
  | some s => s
  | none => "None"

/-- The `headers/<hostname>_headers.txt` files written by the `dump_headers`
branch of `dump_to_file`, one per row of the with-headers selection. -/
def header_dump_files (db : List Row) (domain : String) : List String :=
  (select_with_headers db domain).map (fun t => "headers/" ++ pyStr t.2.1 ++ "_headers.txt")

/-- The output files `dump_to_file` attempts to write, in program order:
the ip list (if `dump_ips`), the hostname list and the protocol-prefixed
hostname list (if `dump_hostnames`), then one header dump per selected row
(if `dump_headers`). -/
def dump_planned_files (db : List Row) (domain : String) (di dh dhead : Bool) : List String :=
  (if di then ["aggregated/aggregated_ips.txt"] else []) ++
  (if dh then ["aggregated/aggregated_hostnames.txt",
               "aggregated/aggregated_protocol_hostnames.txt"] else []) ++
  (if dhead then header_dump_files db domain else [])

/-- The `try` body of `dump_to_file`: writes the files in order; a failing
write raises, carrying out no further writes (`error` holds the files written
before the failure, `ok` the full list). -/
def dump_body (canWrite : String → Bool) : List String → Except (List String) (List String)
  | [] => Except.ok []
  | f :: rest =>
    if canWrite f then
      match dump_body canWrite rest with
      | Except.ok w => Except.ok (f :: w)
      | Except.error w => Except.error (f :: w)
    else Except.error []

/-- The files actually on disk after the body ran (written files stay in place
whether or not an exception was raised). -/
def writtenOf : Except (List String) (List String) → List String
  | Except.ok w => w
  | Except.error w => w

/-- `Aggregation.dump_to_file`: runs the write sequence; the
`except Exception` handler prints a diagnostic and returns — on BOTH paths
the function returns `None` to the caller, so the second component (the error
reported to the caller) is `none` whether or not a write failed. -/
def dump_to_file (canWrite : String → Bool) (db : List Row) (domain : String)
    (di dh dhead : Bool) : List String × Option String :=
  match dump_body canWrite (dump_planned_files db domain di dh dhead) with
  | Except.ok written => (written, none)
  | Except.error written => (written, none)

theorem dump_body_written (c : String → Bool) (files : List String) :
    writtenOf (dump_body c files) = files.takeWhile c := by
  induction files with
  | nil => rfl
  | cons f rest ih =>
    by_cases hc : c f = true
    · simp only [dump_body, hc, if_true, List.takeWhile_cons, ← ih]
      cases dump_body c rest <;> simp [writtenOf]
    · have hc0 : c f = false := by simpa using hc
      simp [dump_body, hc0, List.takeWhile_cons, writtenOf]

/-- Claim C7 (amended): when a write fails during export, the remaining
output steps are aborted and the files already written are left in place
(the outcome is exactly the longest prefix of the planned writes that
succeeds), but the failure does NOT propagate to the caller: the exception is
caught, a diagnostic is printed, and `dump_to_file` returns normally with the
same `none` result as a fully successful export. -/
theorem dump_to_file_swallows_errors (c : String → Bool) (db : List Row) (domain : String)
    (di dh dhead : Bool) :
    dump_to_file c db domain di dh dhead
      = ((dump_planned_files db domain di dh dhead).takeWhile c, none) := by
  have h := dump_body_written c (dump_planned_files db domain di dh dhead)
  unfold dump_to_file
  cases hdb : dump_body c (dump_planned_files db domain di dh dhead) with
  | ok w => rw [hdb] at h; simp only [writtenOf] at h; simp [h]
  | error w => rw [hdb] at h; simp only [writtenOf] at h; simp [h]

/-- Claim C7 is refuted on the code: with a filesystem on which writing
`aggregated/aggregated_hostnames.txt` fails, the export stops after the ip
list (the protocol hostname file is not written, the ip file stays), yet the
call returns exactly the same `none` error component as the fully successful
run — the failure is printed and swallowed, not propagated as an error result
the caller could check. -/
theorem dump_failure_invisible_to_caller :
    dump_to_file (fun f => !(f == "aggregated/aggregated_hostnames.txt")) [] "d" true true false
      = (["aggregated/aggregated_ips.txt"], none)
  ∧ dump_to_file (fun _ => true) [] "d" true true false
      = (["aggregated/aggregated_ips.txt", "aggregated/aggregated_hostnames.txt",
          "aggregated/aggregated_protocol_hostnames.txt"], none) := by
  constructor
  · decide
  · decide

/-- The `WHERE hostname = ? AND domain = ?` clause of the header `UPDATE` in
the second wave of `Aggregation.headers`. -/
def hostDomainMatch (host domain : String) (r : Row) : Bool :=
  sqlEq r.hostname (some host) && sqlEq r.domain (some domain)

/-- `UPDATE data SET http_headers=?, https_headers=? WHERE hostname = ? AND
domain = ? LIMIT 1` (second wave of `headers`). -/
def update_headers_hostname (db : List Row) (domain host : String) (http https : Option String) :
    List Row :=
  match db with
  | [] => []
  | r :: rest =>
    if hostDomainMatch host domain r then
      { r with http_headers := http, https_headers := https } :: rest
    else r :: update_headers_hostname rest domain host http https

/-- The identifier selection of the SECOND wave of `Aggregation.headers`,
exactly as written in the source: `SELECT ip FROM data WHERE ip IS NOT NULL
AND domain='...'` (the result is bound to the variable `hostnames`, but the
query reads the `ip` column, with no `DISTINCT`). -/
def headers_wave2_select (db : List Row) (domain : String) : List String :=
  (db.filter (fun r => r.ip.isSome && sqlEq r.domain (some domain))).filterMap (fun r => r.ip)

/-- The second wave of `Aggregation.headers`: for each selected identifier,
fetch headers (`grab` abstracts `Robot.grab_header` over the network) and run
the hostname-keyed `UPDATE` with the fetched values.  (The Python code gathers
the fetches into a dict first; since `grab` is a function of the identifier,
folding directly over the selected list updates with the same values.) -/
def headers_second_wave (grab : String → Option String × Option String) (db : List Row)
    (domain : String) : List Row :=
  (headers_wave2_select db domain).foldl
    (fun acc v => update_headers_hostname acc domain v (grab v).1 (grab v).2) db

/-- Claim C2 is wrong about the code and the code contradicts its own intent
(the ip-column `SELECT` is bound to a variable named `hostnames` and fed into
an `UPDATE` keyed by the `hostname` column): on a row with ip `1.2.3.4` and
hostname `host.example.com`, the second wave selects the ip value `1.2.3.4`,
not the hostname, and its hostname-keyed `UPDATE ... WHERE
hostname='1.2.3.4'` matches nothing, leaving the headers null. -/
theorem headers_second_wave_uses_ip_column :
    headers_wave2_select
      [⟨some "1.2.3.4", some "host.example.com", none, none, some "example_com"⟩]
      "example_com" = ["1.2.3.4"]
  ∧ headers_second_wave (fun _ => (some "H", some "S"))
      [⟨some "1.2.3.4", some "host.example.com", none, none, some "example_com"⟩]
      "example_com"
      = [⟨some "1.2.3.4", some "host.example.com", none, none, some "example_com"⟩] := by
  constructor
  · decide
  · decide

/-- The value type of the index built by `_gen_output`:
`{hostnames, http_header, https_header, images}`. -/
structure IndexEntry where
  hostnames : List (Option String)
  http_header : Option String
  https_header : Option String
  images : List String
deriving DecidableEq, Repr

/-- Python dict assignment `file_index[k] = v`: overwrite in place if the key
is present, else append (dicts preserve insertion order). -/
def mapSet : List (Option String × IndexEntry) → Option String → IndexEntry →
    List (Option String × IndexEntry)
  | [], k, v => [(k, v)]
  | (k0, v0) :: rest, k, v =>
    if k0 = k then (k, v) :: rest
    else (k0, v0) :: mapSet rest k v

/-- The keys of the index in insertion order. -/
def mapKeys (m : List (Option String × IndexEntry)) : List (Option String) :=
  m.map Prod.fst

/-- The entry seeded by the header phase of `_gen_output` for a header row:
one hostname, the row's header blobs, and the screenshot paths found by the
two recursive `glob.glob` searches (abstracted by `globO`, applied to the
row's ip and hostname). -/
def phase1Entry (globO : Option String → List String) (r : Row) : IndexEntry :=
  ⟨[r.hostname], r.http_headers, r.https_headers, globO r.ip ++ globO r.hostname⟩

/-- `SELECT DISTINCT ip, hostname FROM data WHERE domain='...'` of
`_gen_output`. -/
def distinct_ip_hostname (db : List Row) (domain : String) :
    List (Option String × Option String) :=
  ((db.filter (fun r => sqlEq r.domain (some domain))).map (fun r => (r.ip, r.hostname))).dedup

/-- One iteration of the second loop of `_gen_output`: seed the ip if unseen
(with empty-string headers and no images), else append the hostname if new. -/
def phase2Step (fi : List (Option String × IndexEntry)) (p : Option String × Option String) :
    List (Option String × IndexEntry) :=
  match List.lookup p.1 fi with
  | none => mapSet fi p.1 ⟨[p.2], some "", some "", []⟩
  | some e =>
    if p.2 ∈ e.hostnames then fi
    else mapSet fi p.1 { e with hostnames := e.hostnames ++ [p.2] }

/-- `Aggregation._gen_output`: seeds `file_index` from the rows having any
non-null header, then walks the distinct `(ip, hostname)` pairs of the
domain. -/
def gen_output (globO : Option String → List String) (db : List Row) (domain : String) :
    List (Option String × IndexEntry) :=
  (distinct_ip_hostname db domain).foldl phase2Step
    ((indexer_header_rows db domain).foldl (fun fi r => mapSet fi r.ip (phase1Entry globO r)) [])

theorem mem_mapKeys_mapSet (m : List (Option String × IndexEntry)) (k : Option String)
    (v : IndexEntry) (x : Option String) :
    x ∈ mapKeys (mapSet m k v) ↔ x = k ∨ x ∈ mapKeys m := by
  induction m with
  | nil => simp [mapSet, mapKeys]
  | cons kv rest ih =>
    obtain ⟨k0, v0⟩ := kv
    by_cases hk : k0 = k
    · subst hk
      simp [mapSet, mapKeys]
    · simp only [mapSet, hk, if_false]
      simp only [mapKeys, List.map_cons, List.mem_cons] at ih ⊢
      rw [ih]
      tauto

theorem lookup_some_mem_mapKeys (m : List (Option String × IndexEntry)) (k : Option String)
    (e : IndexEntry) (h : List.lookup k m = some e) : k ∈ mapKeys m := by
  induction m with
  | nil => simp [List.lookup] at h
  | cons kv rest ih =>
    obtain ⟨k0, v0⟩ := kv
    rw [List.lookup] at h
    rcases hb : (k == k0) with _ | _
    · rw [hb] at h
      simp only [mapKeys, List.map_cons, List.mem_cons]
      exact Or.inr (ih h)
    · simp only [mapKeys, List.map_cons, List.mem_cons]
      exact Or.inl (eq_of_beq hb)

theorem mem_keys_phase1_fold (g : Option String → List String) (rows : List Row)
    (m : List (Option String × IndexEntry)) (x : Option String) :
    x ∈ mapKeys (rows.foldl (fun fi r => mapSet fi r.ip (phase1Entry g r)) m)
      ↔ x ∈ mapKeys m ∨ ∃ r ∈ rows, r.ip = x := by
  induction rows generalizing m with
  | nil => simp
  | cons r rest ih =>
    rw [List.foldl_cons, ih, mem_mapKeys_mapSet]
    simp only [List.mem_cons]
    constructor
    · rintro (⟨h | h⟩ | ⟨r2, hr2, hip⟩)
      · exact Or.inr ⟨r, Or.inl rfl, h.symm⟩
      · exact Or.inl h
      · exact Or.inr ⟨r2, Or.inr hr2, hip⟩
    · rintro (h | ⟨r2, hr2 | hr2, hip⟩)
      · exact Or.inl (Or.inr h)
      · subst hr2
        exact Or.inl (Or.inl hip.symm)
      · exact Or.inr ⟨r2, hr2, hip⟩

theorem mem_keys_phase2Step (fi : List (Option String × IndexEntry))
    (p : Option String × Option String) (x : Option String) :
    x ∈ mapKeys (phase2Step fi p) ↔ x = p.1 ∨ x ∈ mapKeys fi := by
  unfold phase2Step
  cases hl : List.lookup p.1 fi with
  | none => exact mem_mapKeys_mapSet fi p.1 _ x
  | some e =>
    have hk := lookup_some_mem_mapKeys fi p.1 e hl
    by_cases hmem : p.2 ∈ e.hostnames
    · simp only [hmem, if_true]
      constructor
      · exact Or.inr
      · rintro (rfl | h)
        · exact hk
        · exact h
    · simp only [hmem, if_false]
      exact mem_mapKeys_mapSet fi p.1 _ x

theorem mem_keys_phase2_fold (pairs : List (Option String × Option String))
    (m : List (Option String × IndexEntry)) (x : Option String) :
    x ∈ mapKeys (pairs.foldl phase2Step m)
      ↔ x ∈ mapKeys m ∨ ∃ p ∈ pairs, p.1 = x := by
  induction pairs generalizing m with
  | nil => simp
  | cons p rest ih =>
    rw [List.foldl_cons, ih, mem_keys_phase2Step]
    simp only [List.mem_cons]
    constructor
    · rintro (⟨h | h⟩ | ⟨p2, hp2, hip⟩)
      · exact Or.inr ⟨p, Or.inl rfl, h.symm⟩
      · exact Or.inl h
      · exact Or.inr ⟨p2, Or.inr hp2, hip⟩
    · rintro (h | ⟨p2, hp2 | hp2, hip⟩)
      · exact Or.inl (Or.inr h)
      · subst hp2
        exact Or.inl (Or.inl hip.symm)
      · exact Or.inr ⟨p2, hp2, hip⟩

/-- Claim C4 (amended): the keys of the Indexer's map are exactly the `ip`
values of the rows of the domain — null included.  A Target row with null ip
is NOT excluded: it is indexed under the null key (all null-ip rows collapse
into the single null entry). -/
theorem gen_output_keys (globO : Option String → List String) (db : List Row)
    (domain : String) (k : Option String) :
    k ∈ mapKeys (gen_output globO db domain)
      ↔ ∃ r ∈ db, sqlEq r.domain (some domain) = true ∧ r.ip = k := by
  unfold gen_output
  rw [mem_keys_phase2_fold, mem_keys_phase1_fold]
  constructor
  · rintro ((h | ⟨r, hr, hip⟩) | ⟨p, hp, hip⟩)
    · simp [mapKeys] at h
    · rw [indexer_header_rows, List.mem_filter] at hr
      refine ⟨r, hr.1, ?_, hip⟩
      have := hr.2
      simp only [indexer_header_pred, Bool.and_eq_true] at this
      exact this.1
    · rw [distinct_ip_hostname, List.mem_dedup, List.mem_map] at hp
      obtain ⟨r, hr, hpr⟩ := hp
      rw [List.mem_filter] at hr
      refine ⟨r, hr.1, hr.2, ?_⟩
      rw [← hip, ← hpr]
  · rintro ⟨r, hr, hdom, hip⟩
    refine Or.inr ⟨(r.ip, r.hostname), ?_, hip⟩
    rw [distinct_ip_hostname, List.mem_dedup, List.mem_map]
    exact ⟨r, List.mem_filter.mpr ⟨hr, hdom⟩, rfl⟩

/-- Claim C4 is refuted on the code: a Target row with null ip and a non-null
`http_headers` passes `_gen_output`'s header query (which has no
`ip IS NOT NULL` filter), and `file_index[ip]` is assigned with the null ip —
the returned mapping contains null as a key. -/
theorem gen_output_null_key :
    none ∈ mapKeys (gen_output (fun _ => [])
      [⟨none, some "h.example.com", some "X", none, some "d"⟩] "d") := by
  decide

/-- Outcome of one `requests.get(url, ...)` in `_get_headers`: the response
headers rendered by `str(...)` on success, `none` when the request raised
(timeout, connection refused, TLS error) and the `except` swallowed it. -/
def tryGet (get : String → Except String String) (url : String) : Option String :=
  match get url with
  | Except.ok h => some h
  | Except.error _ => none

/-- `Aggregation._get_headers` (threaded as `Robot.grab_header`): two
independent `try/except` blocks fetch `http://<id>` and `https://<id>`; the
function always returns the identifier paired with the two results. -/
def grab_header (httpGet httpsGet : String → Except String String) (ip : String) :
    String × Option String × Option String :=
  (ip, tryGet httpGet ("http://" ++ ip), tryGet httpsGet ("https://" ++ ip))

/-- Claim C8: the HTTP and HTTPS requests are attempted independently;
failure of either leaves only that protocol's result as null and is never
raised — for every pair of network behaviours the function returns the
identifier with the per-protocol results, each determined solely by its own
request's outcome. -/
theorem grab_header_independent (httpGet httpsGet : String → Except String String)
    (ip : String) :
    (grab_header httpGet httpsGet ip).1 = ip
  ∧ (∀ e, httpGet ("http://" ++ ip) = Except.error e →
      (grab_header httpGet httpsGet ip).2.1 = none)
  ∧ (∀ v, httpGet ("http://" ++ ip) = Except.ok v →
      (grab_header httpGet httpsGet ip).2.1 = some v)
  ∧ (∀ e, httpsGet ("https://" ++ ip) = Except.error e →
      (grab_header httpGet httpsGet ip).2.2 = none)
  ∧ (∀ v, httpsGet ("https://" ++ ip) = Except.ok v →
      (grab_header httpGet httpsGet ip).2.2 = some v) := by
  refine ⟨rfl, ?_, ?_, ?_, ?_⟩ <;> intro a h <;> simp [grab_header, tryGet, h]

/-- Witness for `grab_header_independent`: http times out while https
succeeds — only the http result is null and the call still returns. -/
theorem grab_header_independent_witness :
    (grab_header (fun _ => Except.error "timeout") (fun _ => Except.ok "HDRS") "9.9.9.9").1
      = "9.9.9.9"
  ∧ (grab_header (fun _ => Except.error "timeout") (fun _ => Except.ok "HDRS") "9.9.9.9").2.1
      = none
  ∧ (grab_header (fun _ => Except.error "timeout") (fun _ => Except.ok "HDRS") "9.9.9.9").2.2
      = some "HDRS" :=
  ⟨(grab_header_independent (fun _ => Except.error "timeout")
      (fun _ => Except.ok "HDRS") "9.9.9.9").1,
   (grab_header_independent (fun _ => Except.error "timeout")
      (fun _ => Except.ok "HDRS") "9.9.9.9").2.1 "timeout" rfl,
   (grab_header_independent (fun _ => Except.error "timeout")
      (fun _ => Except.ok "HDRS") "9.9.9.9").2.2.2.2 "HDRS" rfl⟩

/-- Minimal regular-expression syntax covering the two patterns compiled in
`_reverse_ip_lookup`: character classes, concatenation, alternation, greedy
`?`, and lazy `*?`.  Bounded repetitions are expanded by `repExact` and
`repUpTo`. -/
inductive RE where
  | eps : RE
  | cls : (Char → Bool) → RE
  | cat : RE → RE → RE
  | alt : RE → RE → RE
  | opt : RE → RE
  | starL : RE → RE

/-- Backtracking matcher with Python's preference order (the first success in
backtracking order wins): `alt` tries the left alternative first, `opt`
prefers presence, `starL` (lazy star) prefers the shortest expansion.  The
continuation receives the unconsumed suffix.  `fuel` bounds the recursion
depth only; it is chosen far above the depth reachable on the inputs
evaluated here. -/
def reM : Nat → RE → List Char → (List Char → Option (List Char)) → Option (List Char)
  | 0, _, _, _ => none
  | _ + 1, RE.eps, s, k => k s
  | _ + 1, RE.cls p, s, k =>
    match s with
    | [] => none
    | c :: rest => if p c then k rest else none
  | fuel + 1, RE.cat a b, s, k => reM fuel a s (fun s2 => reM fuel b s2 k)
  | fuel + 1, RE.alt a b, s, k =>
    match reM fuel a s k with
    | some r => some r
    | none => reM fuel b s k
  | fuel + 1, RE.opt a, s, k =>
    match reM fuel a s k with
    | some r => some r
    | none => k s
  | fuel + 1, RE.starL a, s, k =>
    match k s with
    | some r => some r
    | none => reM fuel a s (fun s2 => reM fuel (RE.starL a) s2 k)

/-- A single literal character. -/
def chrRE (c : Char) : RE := RE.cls (fun x => x == c)

/-- A character class `[lo-hi]`. -/
def classRange (lo hi : Char) : RE := RE.cls (fun x => decide (lo ≤ x) && decide (x ≤ hi))

/-- `\d`. -/
def digitRE : RE := classRange '0' '9'

/-- Concatenation of a sequence of regexes. -/
def catList : List RE → RE
  | [] => RE.eps
  | r :: rs => RE.cat r (catList rs)

/-- An exact repetition, for the quantifier `(...){3}`. -/
def repExact : Nat → RE → RE
  | 0, _ => RE.eps
  | n + 1, r => RE.cat r (repExact n r)

/-- A greedy bounded repetition, for the quantifier `(...){0,61}` (longer
expansions preferred, as in Python). -/
def repUpTo : Nat → RE → RE
  | 0, _ => RE.eps
  | n + 1, r => RE.alt (RE.cat r (repUpTo n r)) RE.eps

/-- One octet alternation of the legacy IPv4 pattern:
`1\d\d|2[0-5][0-5]|2[0-4]\d|0?[1-9]\d|0?0?\d`. -/
def octetRE : RE :=
  RE.alt (catList [chrRE '1', digitRE, digitRE])
    (RE.alt (catList [chrRE '2', classRange '0' '5', classRange '0' '5'])
      (RE.alt (catList [chrRE '2', classRange '0' '4', digitRE])
        (RE.alt (catList [RE.opt (chrRE '0'), classRange '1' '9', digitRE])
          (catList [RE.opt (chrRE '0'), RE.opt (chrRE '0'), digitRE]))))

/-- `ip_reg`: `(?:(?:octet)\.){3}(?:octet)`. -/
def ip_reg : RE := RE.cat (repExact 3 (RE.cat octetRE (chrRE '.'))) octetRE

/-- `[a-zA-Z0-9]`. -/
def alnumB (c : Char) : Bool :=
  (decide ('a' ≤ c) && decide (c ≤ 'z')) || (decide ('A' ≤ c) && decide (c ≤ 'Z')) ||
    (decide ('0' ≤ c) && decide (c ≤ '9'))

def alnumRE : RE := RE.cls alnumB

/-- `[a-zA-Z0-9\-]`. -/
def alnumDashRE : RE := RE.cls (fun c => alnumB c || c == '-')

/-- One DNS label: `[a-zA-Z0-9]|[a-zA-Z0-9][a-zA-Z0-9\-]{0,61}[a-zA-Z0-9]`. -/
def labelRE : RE := RE.alt alnumRE (catList [alnumRE, repUpTo 61 alnumDashRE, alnumRE])

/-- The configured domain suffix, spliced into the pattern verbatim
(`re.compile(r"..." + self.domain)`), so a `.` inside the domain is the
regex any-character-but-newline class. -/
def literalRE (s : String) : RE :=
  catList (s.data.map (fun c => if c == '.' then RE.cls (fun x => !(x == '\n')) else chrRE c))

/-- `hostname_reg`: `(label)(\.(label))*?\.` followed by the domain. -/
def hostname_reg (domain : String) : RE :=
  RE.cat labelRE
    (RE.cat (RE.starL (RE.cat (chrRE '.') labelRE)) (RE.cat (chrRE '.') (literalRE domain)))

/-- `pattern.match(line)` — anchored at position 0, as in Python; on success
`.group()` is the matched prefix (the first match in backtracking order). -/
def reMatch (r : RE) (s : List Char) : Option (List Char) :=
  match reM 1000 r s some with
  | some rest => some (s.take (s.length - rest.length))
  | none => none

/-- `hostname_reg.match(line)` of `_reverse_ip_lookup`. -/
def hostnameMatch (domain : String) (line : List Char) : Option (List Char) :=
  reMatch (hostname_reg domain) line

/-- `ip_reg.match(line)` of `_reverse_ip_lookup`. -/
def ipMatch (line : List Char) : Option (List Char) :=
  reMatch ip_reg line

/-- One loop iteration of `_reverse_ip_lookup` for a line: regex-match the
hostname and the ip at the start of the line, then fill the missing one by
DNS inside the `try/except BaseException: pass` block (`fwd` abstracts
`socket.gethostbyname`, `rev` abstracts `socket.gethostbyaddr`; `none` means
the lookup raised and was swallowed).  Returns the emitted `(host, ip)`
observation (if any) together with whether a forward and whether a reverse
DNS lookup was performed. -/
def process_line (fwd rev : List Char → Option (List Char)) (domain : String)
    (line : List Char) :
    Option (Option (List Char) × Option (List Char)) × Bool × Bool :=
  let host0 := hostnameMatch domain line
  let ip0 := ipMatch line
  if host0.isSome && ip0.isNone then
    let ip1 := fwd (host0.getD [])
    (if host0.isSome || ip1.isSome then some (host0, ip1) else none, true, false)
  else if ip0.isSome && host0.isNone then
    let host1 := rev (ip0.getD [])
    (if host1.isSome || ip0.isSome then some (host1, ip0) else none, false, true)
  else
    (if host0.isSome || ip0.isSome then some (host0, ip0) else none, false, false)

/-- Claim C3 (amended): for the line `1.2.3.4 host.example.com` with domain
`example.com`, the IPv4 pattern matches `1.2.3.4`, but `hostname_reg.match`
is anchored at the start of the line and does NOT find `host.example.com`;
the Extractor therefore performs a reverse DNS lookup on `1.2.3.4` and emits
`(r, 1.2.3.4)` where `r` is the reverse-lookup result (null when the lookup
fails). -/
theorem extract_line_reverse_lookup (fwd rev : List Char → Option (List Char)) :
    process_line fwd rev "example.com" ("1.2.3.4 host.example.com".data)
      = (some (rev ("1.2.3.4".data), some ("1.2.3.4".data)), false, true) := by
  have hh : hostnameMatch "example.com" ("1.2.3.4 host.example.com".data) = none := by decide
  have hi : ipMatch ("1.2.3.4 host.example.com".data) = some ("1.2.3.4".data) := by decide
  simp only [process_line, hh, hi, Option.isSome_none, Option.isSome_some, Option.isNone_none,
    Option.isNone_some, Bool.false_and, Bool.true_and, Bool.and_false, Bool.and_true,
    Bool.or_true, if_true, if_false, Bool.false_eq_true, Option.getD_some]

/-- Claim C3 is refuted on the code at its own scenario input: on the line
`1.2.3.4 host.example.com` the hostname regex (anchored at the line start by
`.match`) finds nothing, a reverse DNS lookup IS performed (third component
`true`), and with a failing resolver the emitted pair is
`(None, 1.2.3.4)`, not `(host.example.com, 1.2.3.4)`. -/
theorem extract_line_scenario_refuted :
    process_line (fun _ => none) (fun _ => none) "example.com"
      ("1.2.3.4 host.example.com".data)
      = (some (none, some ("1.2.3.4".data)), false, true) := by decide

/-- Alternative `1\d\d` of the octet sub-pattern, as a full match on a digit
string (each digit given by its numeric value `0`-`9`). -/
def octAlt1 : List Nat → Bool
  | [a, b, c] => decide (a = 1 ∧ b ≤ 9 ∧ c ≤ 9)
  | _ => false

/-- Alternative `2[0-5][0-5]`. -/
def octAlt2 : List Nat → Bool
  | [a, b, c] => decide (a = 2 ∧ b ≤ 5 ∧ c ≤ 5)
  | _ => false

/-- Alternative `2[0-4]\d`. -/
def octAlt3 : List Nat → Bool
  | [a, b, c] => decide (a = 2 ∧ b ≤ 4 ∧ c ≤ 9)
  | _ => false

/-- Alternative `0?[1-9]\d` (two digits, or three with a leading zero). -/
def octAlt4 : List Nat → Bool
  | [a, b] => decide (1 ≤ a ∧ a ≤ 9 ∧ b ≤ 9)
  | [z, a, b] => decide (z = 0 ∧ 1 ≤ a ∧ a ≤ 9 ∧ b ≤ 9)
  | _ => false

/-- Alternative `0?0?\d` (one digit, optionally padded with up to two
leading zeros). -/
def octAlt5 : List Nat → Bool
  | [a] => decide (a ≤ 9)
  | [z, a] => decide (z = 0 ∧ a ≤ 9)
  | [z, y, a] => decide (z = 0 ∧ y = 0 ∧ a ≤ 9)
  | _ => false

/-- Full match of a digit string against the octet sub-pattern
`1\d\d|2[0-5][0-5]|2[0-4]\d|0?[1-9]\d|0?0?\d` of `ip_reg` (for a full match
the alternation is the union of its branches). -/
def octetFullMatch (s : List Nat) : Bool :=
  octAlt1 s || octAlt2 s || octAlt3 s || octAlt4 s || octAlt5 s

/-- Decimal value of a digit string. -/
def digitsVal (s : List Nat) : Nat :=
  s.foldl (fun acc d => 10 * acc + d) 0

/-- Claim C9 (amended): a digit string is matched in full by the octet
sub-pattern iff it has at most three digits and its decimal value is at most
255 (so leading-zero encodings such as `099` and `007` are accepted, but
encodings of four or more digits are rejected even when the value is in
range). -/
theorem octet_fullmatch_iff (s : List Nat) (hne : s ≠ [])
    (hdig : ∀ d ∈ s, d ≤ 9) :
    octetFullMatch s = true ↔ (s.length ≤ 3 ∧ digitsVal s ≤ 255) := by
  cases s with
  | nil => exact absurd rfl hne
  | cons a t =>
    have ha : a ≤ 9 := hdig a (by simp)
    cases t with
    | nil =>
      simp only [octetFullMatch, octAlt1, octAlt2, octAlt3, octAlt4, octAlt5, digitsVal,
        List.foldl_cons, List.foldl_nil, Bool.or_eq_true, decide_eq_true_eq,
        List.length_singleton, List.length_nil]
      omega
    | cons b t2 =>
      have hb : b ≤ 9 := hdig b (by simp)
      cases t2 with
      | nil =>
        simp only [octetFullMatch, octAlt1, octAlt2, octAlt3, octAlt4, octAlt5, digitsVal,
          List.foldl_cons, List.foldl_nil, Bool.or_eq_true, decide_eq_true_eq,
          List.length_cons, List.length_singleton, List.length_nil]
        omega
      | cons c t3 =>
        have hc : c ≤ 9 := hdig c (by simp)
        cases t3 with
        | nil =>
          simp only [octetFullMatch, octAlt1, octAlt2, octAlt3, octAlt4, octAlt5, digitsVal,
            List.foldl_cons, List.foldl_nil, Bool.or_eq_true, decide_eq_true_eq,
            List.length_cons, List.length_singleton, List.length_nil]
          omega
        | cons d t4 =>
          have h1 : octAlt1 (a :: b :: c :: d :: t4) = false := rfl
          have h2 : octAlt2 (a :: b :: c :: d :: t4) = false := rfl
          have h3 : octAlt3 (a :: b :: c :: d :: t4) = false := rfl
          have h4 : octAlt4 (a :: b :: c :: d :: t4) = false := rfl
          have h5 : octAlt5 (a :: b :: c :: d :: t4) = false := rfl
          simp only [octetFullMatch, h1, h2, h3, h4, h5, Bool.or_self, Bool.false_eq_true,
            false_iff, not_and, List.length_cons]
          intro hlen
          omega

/-- Witness for `octet_fullmatch_iff` at the leading-zero digit string
`099`. -/
theorem octet_fullmatch_iff_witness :
    ([0, 9, 9] : List Nat) ≠ []
  ∧ (∀ d ∈ ([0, 9, 9] : List Nat), d ≤ 9)
  ∧ (octetFullMatch [0, 9, 9] = true
      ↔ (([0, 9, 9] : List Nat).length ≤ 3 ∧ digitsVal [0, 9, 9] ≤ 255)) :=
  ⟨by decide, by decide, octet_fullmatch_iff [0, 9, 9] (by decide) (by decide)⟩

/-- Claim C9 is refuted on the code: `0007` is a digit string whose decimal
value `7` lies between 0 and 255 and which is a leading-zero encoding of that
value, yet no branch of the octet sub-pattern matches it in full (every
branch consumes at most three characters). -/
theorem octet_rejects_long_leading_zero :
    digitsVal [0, 0, 0, 7] = 7 ∧ digitsVal [0, 0, 0, 7] ≤ 255
  ∧ octetFullMatch [0, 0, 0, 7] = false := by decide

end DrRobot
